import Mathlib

/-!
lmt: the configuration accessors (`liblmt/lmtconf.h`) and the `lmtinit`
command line utility (`utils/lmtinit.c`)

C strings (`char *`) are `Option String`: `none` is the NULL pointer.  C `int`
values are `Int`; the program only stores and compares them with 0 and 1.
-/

set_option autoImplicit false

namespace Lmt

/-! ## Configuration store (`lmtconf.h`) -/

/-- Modelled from the spec: `lmtconf.c`, which holds the process-wide
configuration, is not among the sources; only the header `lmtconf.h` with the
accessor declarations is.  The fields are those of the data model of the spec
(strings may be absent), with the C types of the header (`char *`, `int`). -/
structure Conf where
  ro_dbuser : Option String
  ro_dbpasswd : Option String
  rw_dbuser : Option String
  rw_dbpasswd : Option String
  dbhost : Option String
  dbport : Int
  debug : Int
  deriving DecidableEq, Repr

/-- Modelled from the spec: `char *lmt_conf_get_ro_dbuser (void)` is declared in
`lmtconf.h`, its body is missing; the accessor exposes the field. -/
def lmt_conf_get_ro_dbuser (c : Conf) : Option String := c.ro_dbuser

/-- Modelled from the spec: `int lmt_conf_set_ro_dbuser (char *s)`, body missing;
the setter overrides the field.  The spec says nothing about the `int` it
returns, which is left out. -/
def lmt_conf_set_ro_dbuser (s : Option String) (c : Conf) : Conf := { c with ro_dbuser := s }

/-- Modelled from the spec: `char *lmt_conf_get_ro_dbpasswd (void)`, body missing. -/
def lmt_conf_get_ro_dbpasswd (c : Conf) : Option String := c.ro_dbpasswd

/-- Modelled from the spec: `int lmt_conf_set_ro_dbpasswd (char *s)`, body missing. -/
def lmt_conf_set_ro_dbpasswd (s : Option String) (c : Conf) : Conf := { c with ro_dbpasswd := s }

/-- Modelled from the spec: `char *lmt_conf_get_rw_dbuser (void)`, body missing. -/
def lmt_conf_get_rw_dbuser (c : Conf) : Option String := c.rw_dbuser

/-- Modelled from the spec: `int lmt_conf_set_rw_dbuser (char *s)`, body missing. -/
def lmt_conf_set_rw_dbuser (s : Option String) (c : Conf) : Conf := { c with rw_dbuser := s }

/-- Modelled from the spec: `char *lmt_conf_get_rw_dbpasswd (void)`, body missing. -/
def lmt_conf_get_rw_dbpasswd (c : Conf) : Option String := c.rw_dbpasswd

/-- Modelled from the spec: `int lmt_conf_set_rw_dbpasswd (char *s)`, body missing. -/
def lmt_conf_set_rw_dbpasswd (s : Option String) (c : Conf) : Conf := { c with rw_dbpasswd := s }

/-- Modelled from the spec: `char *lmt_conf_get_dbhost (void)`, body missing. -/
def lmt_conf_get_dbhost (c : Conf) : Option String := c.dbhost

/-- Modelled from the spec: `int lmt_conf_set_dbhost (char *s)`, body missing. -/
def lmt_conf_set_dbhost (s : Option String) (c : Conf) : Conf := { c with dbhost := s }

/-- Modelled from the spec: `int lmt_conf_get_dbport (void)`, body missing. -/
def lmt_conf_get_dbport (c : Conf) : Int := c.dbport

/-- Modelled from the spec: `void lmt_conf_set_dbport (int i)`, body missing. -/
def lmt_conf_set_dbport (i : Int) (c : Conf) : Conf := { c with dbport := i }

/-- Modelled from the spec: `int lmt_conf_get_debug (void)`, body missing. -/
def lmt_conf_get_debug (c : Conf) : Int := c.debug

/-- Modelled from the spec: `void lmt_conf_set_debug (int i)`, body missing. -/
def lmt_conf_set_debug (i : Int) (c : Conf) : Conf := { c with debug := i }

/-- The seven configuration fields that have an accessor pair in `lmtconf.h`. -/
inductive Field
  | ro_dbuser | ro_dbpasswd | rw_dbuser | rw_dbpasswd | dbhost | dbport | debug
  deriving DecidableEq, Repr

/-- The C type of a field as declared in `lmtconf.h`: `int` for the port and the
debug flag, `char *` for the rest. -/
@[reducible] def Field.type : Field → Type
  | .dbport => Int
  | .debug => Int
  | _ => Option String

/-- The getter of a field, by the name `lmtconf.h` declares for it. -/
def get_field : (f : Field) → Conf → f.type
  | .ro_dbuser, c => lmt_conf_get_ro_dbuser c
  | .ro_dbpasswd, c => lmt_conf_get_ro_dbpasswd c
  | .rw_dbuser, c => lmt_conf_get_rw_dbuser c
  | .rw_dbpasswd, c => lmt_conf_get_rw_dbpasswd c
  | .dbhost, c => lmt_conf_get_dbhost c
  | .dbport, c => lmt_conf_get_dbport c
  | .debug, c => lmt_conf_get_debug c

/-- The setter of a field, by the name `lmtconf.h` declares for it. -/
def set_field : (f : Field) → f.type → Conf → Conf
  | .ro_dbuser, v, c => lmt_conf_set_ro_dbuser v c
  | .ro_dbpasswd, v, c => lmt_conf_set_ro_dbpasswd v c
  | .rw_dbuser, v, c => lmt_conf_set_rw_dbuser v c
  | .rw_dbpasswd, v, c => lmt_conf_set_rw_dbpasswd v c
  | .dbhost, v, c => lmt_conf_set_dbhost v c
  | .dbport, v, c => lmt_conf_set_dbport v c
  | .debug, v, c => lmt_conf_set_debug v c

/-- One call of a setter: the field and the value given. -/
structure SetCall where
  field : Field
  value : field.type

/-- A sequence of setter calls, run in order on the store. -/
def run_sets : List SetCall → Conf → Conf
  | [], c => c
  | s :: rest, c => run_sets rest (set_field s.field s.value c)

/-- The value given by the last call in the sequence that sets field `f`, if any. -/
def last_set (f : Field) : List SetCall → Option f.type
  | [] => none
  | s :: rest =>
    match last_set f rest with
    | some x => some x
    | none => if h : s.field = f then some (h ▸ s.value) else none

/-! ## `lmtinit` (`utils/lmtinit.c`) -/

/-- Modelled from the spec: `lmtinit.c` reads the read-only user through
`lmt_conf_get_db_rouser`, a name that `lmtconf.h` does not declare and whose body
is missing; it is the getter of the configured read-only user. -/
def lmt_conf_get_db_rouser (c : Conf) : Option String := lmt_conf_get_ro_dbuser c

/-- Modelled from the spec: `lmt_conf_get_db_rwuser`, called by `lmtinit.c`, body
missing; the getter of the configured read-write user. -/
def lmt_conf_get_db_rwuser (c : Conf) : Option String := lmt_conf_get_rw_dbuser c

/-- Modelled from the spec: `lmt_conf_get_db_rwpasswd`, called by `lmtinit.c`,
body missing; the getter of the configured read-write password. -/
def lmt_conf_get_db_rwpasswd (c : Conf) : Option String := lmt_conf_get_rw_dbpasswd c

/-- Modelled from the spec: `lmt_conf_set_db_debug`, called by `lmtinit.c`, body
missing; the setter of the debug flag ("used by the CLI to force debug mode on"). -/
def lmt_conf_set_db_debug (i : Int) (c : Conf) : Conf := lmt_conf_set_debug i c

/-- What one call of `GETOPT (argc, argv, OPTIONS, longopts)` hands to the
`switch` before it returns -1: the option character, with `optarg` for the
options that `OPTIONS = "a:d:lc:s:u:p:"` declares with an argument (`optarg` is
never NULL for those).  `unknown` stands for every other return value ('?' for an
unrecognised option or a missing argument), which the `switch` sends to
`default`. -/
inductive GetoptResult
  | a (optarg : String)
  | d (optarg : String)
  | l
  | c (optarg : String)
  | s (optarg : String)
  | u (optarg : String)
  | p (optarg : String)
  | unknown
  deriving DecidableEq, Repr

/-- The local variables of `main` that the option loop assigns. -/
structure Locals where
  aopt : Int
  dopt : Int
  lopt : Int
  fsname : Option String
  conffile : Option String
  schemafile : Option String
  user : Option String
  pass : Option String
  deriving DecidableEq, Repr

/-- The initialisers of `main`: `int aopt = 0; ... char *pass = NULL;`. -/
def Locals.init : Locals :=
  { aopt := 0, dopt := 0, lopt := 0, fsname := none, conffile := none,
    schemafile := none, user := none, pass := none }

/-- The body of the `switch (c)` in `main`; `none` is the `default:` case, which
calls `usage ()`. -/
def switch_case (v : Locals) : GetoptResult → Option Locals
  | .a optarg => some { v with aopt := 1, fsname := some optarg }
  | .d optarg => some { v with dopt := 1, fsname := some optarg }
  | .l => some { v with lopt := 1 }
  | .c optarg => some { v with conffile := some optarg }
  | .s optarg => some { v with schemafile := some optarg }
  | .u optarg => some { v with user := some optarg }
  | .p optarg => some { v with pass := some optarg }
  | .unknown => none

/-- The `while ((c = GETOPT (...)) != -1)` loop of `main` over the successive
results of getopt; `none` when an iteration reaches `default:`. -/
def getopt_loop : List GetoptResult → Locals → Option Locals
  | [], v => some v
  | r :: rest, v =>
    match switch_case v r with
    | none => none
    | some v1 => getopt_loop rest v1

/-- A call of one of the three action handlers of `lmtinit.c`, with the arguments
it received. -/
inductive Call
  | list (user pass : Option String)
  | del (user pass fsname : Option String)
  | add (user pass fsname schemafile : Option String)
  deriving DecidableEq, Repr

/-- What the program has done so far that can be observed: the text written with
`fprintf (stderr, ...)`, the lines emitted through `msg`/`msg_exit`, and the
handlers entered (a trace kept only for stating properties). -/
structure World where
  stderr : List String
  msgs : List String
  calls : List Call
  deriving DecidableEq, Repr

/-- Nothing observed yet. -/
def World.start : World := { stderr := [], msgs := [], calls := [] }

/-- A finished run: what was observed and the argument of `exit`. -/
structure Outcome where
  world : World
  status : Int
  deriving DecidableEq, Repr

/-- The collaborators of `lmtinit` that are not part of the sources: the state of
the configuration store when `main` starts, `lmt_conf_init (vopt, path)` (its
return value and the store it leaves), and `lmt_db_list (user, pass, &l)` of the
database layer (its return value and the list of names it stores in `l`), which
may depend on the store (host, port). -/
structure Env where
  conf : Conf
  lmt_conf_init : Int → Option String → Conf → Int × Conf
  lmt_db_list : Conf → Option String → Option String → Int × List String

/-- The text `usage` writes: the format string of `fprintf` with the two `%s`
replaced by `u ? u : "<nil>"` and `p ? p : "<nil>"`. -/
def usage_text (u p : Option String) : String :=
  "Usage: lmtinit [OPTIONS]\n" ++
  "  -a,--add FS            create database for file system\n" ++
  "  -d,--delete FS         remove database for file system\n" ++
  "  -l,--list              list file systems in database\n" ++
  "  -c,--config-file FILE  use an alternate config file\n" ++
  "  -s,--schema-file FILE  use an alternate schema file\n" ++
  "  -u,--user=USER         connect to the db with USER (default: " ++
  (match u with | some x => x | none => "<nil>") ++ ")\n" ++
  "  -p,--password=PASS     connect to the db with PASS (default: " ++
  (match p with | some x => x | none => "<nil>") ++ ")\n"

/-- The function `usage`: print the usage text, with the configured read-write
user and password as the defaults shown, and `exit (1)`. -/
def usage (conf : Conf) (w : World) : Outcome :=
  let u := lmt_conf_get_db_rwuser conf
  let p := lmt_conf_get_db_rwpasswd conf
  { world := { w with stderr := w.stderr ++ [usage_text u p] }, status := 1 }

/-- Modelled from the spec: `msg` is declared in `error.h`, which is not among
the sources; it emits its formatted message as one output line ("print the
remainder"). -/
def msg (text : String) (w : World) : World := { w with msgs := w.msgs ++ [text] }

/-- Modelled from the spec: `msg_exit` is declared in `error.h`, which is not
among the sources; it emits its message like `msg` and ends the program with the
status of a usage error ("exit code ... 1 on any usage or fatal configuration
error"). -/
def msg_exit (text : String) (w : World) : Outcome := { world := msg text w, status := 1 }

/-- The C library's `strchr (s, c)` for a character `c` other than NUL: the part
of `s` that starts at the first occurrence of `c`, NULL when there is none. -/
def strchr : List Char → Char → Option (List Char)
  | [], _ => none
  | x :: xs, c => if x = c then some (x :: xs) else strchr xs c

/-- The argument `p ? p + 1 : s` that `list` gives to `msg`, where
`p = strchr (s, '_')`. -/
def list_line (s : String) : String :=
  match strchr s.data '_' with
  | some p => String.mk (p.drop 1)
  | none => s

/-- The loop `while ((s = list_next (itr))) { ... msg ("%s", ...); }` of `list`
over the names in the order the iterator yields them. -/
def list_loop : List String → World → World
  | [], w => w
  | s :: rest, w => list_loop rest (msg (list_line s) w)

/-- The function `list`: return at once when `lmt_db_list` is negative, else emit
one line per name. -/
def list (env : Env) (conf : Conf) (user pass : Option String) (w : World) : World :=
  let w := { w with calls := w.calls ++ [Call.list user pass] }
  let r := env.lmt_db_list conf user pass
  if r.1 < 0 then w
  else list_loop r.2 w

/-- The function `del`, whose body is empty. -/
def del (user pass fsname : Option String) (w : World) : World :=
  { w with calls := w.calls ++ [Call.del user pass fsname] }

/-- The function `add`, whose body is empty. -/
def add (user pass fsname schemafile : Option String) (w : World) : World :=
  { w with calls := w.calls ++ [Call.add user pass fsname schemafile] }

/-- The credential block of `main` (the `if (lopt) { ... } else { ... }` before
the dispatch), statement by statement: both `if (!user)` and `if (!pass)` assign
to `user`. -/
def resolve_credentials (conf : Conf) (v : Locals) : Locals :=
  if v.lopt ≠ 0 then
    let v := if v.user.isNone then { v with user := lmt_conf_get_db_rouser conf } else v
    let v := if v.pass.isNone then { v with user := lmt_conf_get_db_rouser conf } else v
    v
  else
    let v := if v.user.isNone then { v with user := lmt_conf_get_db_rwuser conf } else v
    let v := if v.pass.isNone then { v with user := lmt_conf_get_db_rwuser conf } else v
    v

/-- The dispatch of `main`: `if (lopt) list (...); else if (dopt) del (...);
else if (aopt) add (...);`. -/
def dispatch (env : Env) (conf : Conf) (v : Locals) (w : World) : World :=
  if v.lopt ≠ 0 then list env conf v.user v.pass w
  else if v.dopt ≠ 0 then del v.user v.pass v.fsname w
  else if v.aopt ≠ 0 then add v.user v.pass v.fsname v.schemafile w
  else w

/-- The function `main`.  `opts` are the successive results of getopt and
`operands` the arguments left at `argv[optind..argc)`, so that `optind < argc`
is `operands ≠ []`.  `err_init` only records the program name and `opterr = 0`
silences getopt. -/
def main (env : Env) (opts : List GetoptResult) (operands : List String) : Outcome :=
  let w := World.start
  match getopt_loop opts Locals.init with
  | none => usage env.conf w
  | some v =>
    let r := env.lmt_conf_init 1 v.conffile env.conf
    if r.1 < 0 then { world := w, status := 1 }
    else
      let conf := lmt_conf_set_db_debug 1 r.2
      if operands ≠ [] then usage conf w
      else if v.aopt = 0 ∧ v.dopt = 0 ∧ v.lopt = 0 then usage conf w
      else if v.aopt + v.dopt + v.lopt > 1 then
        msg_exit "Use only one of -a, -d, and -l options." w
      else
        let v := resolve_credentials conf v
        let w := dispatch env conf v w
        { world := w, status := 0 }

/-! ### Reading an invocation -/

/-- The argument of `-a`, if the result is one. -/
def arg_a : GetoptResult → Option String
  | .a x => some x
  | _ => none

/-- The argument of `-d`, if the result is one. -/
def arg_d : GetoptResult → Option String
  | .d x => some x
  | _ => none

/-- The argument of `-c`, if the result is one. -/
def arg_c : GetoptResult → Option String
  | .c x => some x
  | _ => none

/-- The argument of `-s`, if the result is one. -/
def arg_s : GetoptResult → Option String
  | .s x => some x
  | _ => none

/-- The argument of `-u`, if the result is one. -/
def arg_u : GetoptResult → Option String
  | .u x => some x
  | _ => none

/-- The argument of `-p`, if the result is one. -/
def arg_p : GetoptResult → Option String
  | .p x => some x
  | _ => none

/-- The first value when there is one, else the second. -/
def first_some (x y : Option String) : Option String :=
  match x with
  | some z => some z
  | none => y

/-- The argument of the last option of the selected kind on the command line,
`none` when the option is not given. -/
def last_arg (sel : GetoptResult → Option String) : List GetoptResult → Option String
  | [] => none
  | r :: rest => first_some (last_arg sel rest) (sel r)

/-- Whether `-a`/`--add` is given. -/
def given_a (opts : List GetoptResult) : Bool := (last_arg arg_a opts).isSome

/-- Whether `-d`/`--delete` is given. -/
def given_d (opts : List GetoptResult) : Bool := (last_arg arg_d opts).isSome

/-- Whether `-l`/`--list` is given. -/
def given_l (opts : List GetoptResult) : Bool := decide (GetoptResult.l ∈ opts)

/-- How many of the three action kinds `-a`, `-d`, `-l` are given. -/
def action_kinds (opts : List GetoptResult) : Nat :=
  (given_a opts).toNat + (given_d opts).toNat + (given_l opts).toNat

/-- The options parse cleanly: getopt never reports an unrecognised option or a
missing argument. -/
def parses_cleanly (opts : List GetoptResult) : Prop := GetoptResult.unknown ∉ opts

instance (opts : List GetoptResult) : Decidable (parses_cleanly opts) := by
  unfold parses_cleanly; infer_instance

/-- The return value of `lmt_conf_init` for this command line (the configuration
file is the argument of the last `-c`). -/
def init_status (env : Env) (opts : List GetoptResult) : Int :=
  (env.lmt_conf_init 1 (last_arg arg_c opts) env.conf).1

/-- The configuration store as `main` uses it after a successful
`lmt_conf_init` and `lmt_conf_set_db_debug (1)`. -/
def configured (env : Env) (opts : List GetoptResult) : Conf :=
  lmt_conf_set_db_debug 1 (env.lmt_conf_init 1 (last_arg arg_c opts) env.conf).2

/-- What the spec says `list` prints for a name: "strip everything up to and
including the first `_` character and print the remainder", the name unchanged
when it has no `_`. -/
def spec_line (s : String) : String :=
  if '_' ∈ s.data then String.mk ((s.data.dropWhile (fun ch => ch ≠ '_')).drop 1) else s

/-- The argument of `-a` or of `-d`, if the result is one of them: the two
options that assign `fsname`. -/
def arg_fs : GetoptResult → Option String
  | .a x => some x
  | .d x => some x
  | _ => none

/-- The values of the locals after the option loop, read off the command line:
a flag is 1 when its option is given and each string is the argument of the last
option that assigns it. -/
def parsed_locals (opts : List GetoptResult) (v : Locals) : Locals :=
  { aopt := if given_a opts then 1 else v.aopt,
    dopt := if given_d opts then 1 else v.dopt,
    lopt := if given_l opts then 1 else v.lopt,
    fsname := first_some (last_arg arg_fs opts) v.fsname,
    conffile := first_some (last_arg arg_c opts) v.conffile,
    schemafile := first_some (last_arg arg_s opts) v.schemafile,
    user := first_some (last_arg arg_u opts) v.user,
    pass := first_some (last_arg arg_p opts) v.pass }

/-! ### Sample environments -/

/-- A configuration as a site might have it. -/
def sample_conf : Conf :=
  { ro_dbuser := some "lwatchclient", ro_dbpasswd := some "ropw",
    rw_dbuser := some "lwatchadmin", rw_dbpasswd := some "rwpw",
    dbhost := some "localhost", dbport := 3306, debug := 0 }

/-- The store before `lmt_conf_init`: nothing configured. -/
def empty_conf : Conf :=
  { ro_dbuser := none, ro_dbpasswd := none, rw_dbuser := none, rw_dbpasswd := none,
    dbhost := none, dbport := 0, debug := 0 }

/-- An environment where initialisation succeeds with `sample_conf` and the
database holds two file systems. -/
def sample_env : Env :=
  { conf := empty_conf,
    lmt_conf_init := fun _ _ _ => (0, sample_conf),
    lmt_db_list := fun _ _ _ => (0, ["lmt_scratch", "lmt_home"]) }

/-- An environment where the configuration file cannot be read:
`lmt_conf_init` fails. -/
def badconf_env : Env :=
  { conf := empty_conf,
    lmt_conf_init := fun _ _ c => (-1, c),
    lmt_db_list := fun _ _ _ => (0, ["lmt_scratch", "lmt_home"]) }

/-- An environment where the database refuses a connection without a password:
`lmt_db_list` fails when `pass` is NULL. -/
def dbfail_env : Env :=
  { conf := empty_conf,
    lmt_conf_init := fun _ _ _ => (0, sample_conf),
    lmt_db_list := fun _ _ pass => if pass.isNone then (-1, []) else (0, ["lmt_scratch"]) }

end Lmt

namespace Lmt

/-! ## The option loop -/

theorem first_some_none_left (y : Option String) : first_some none y = y := rfl

theorem first_some_some_left (z : String) (y : Option String) :
    first_some (some z) y = some z := rfl

theorem first_some_none_right (x : Option String) : first_some x none = x := by
  cases x <;> rfl

theorem first_some_assoc (x y z : Option String) :
    first_some (first_some x y) z = first_some x (first_some y z) := by
  cases x <;> rfl

theorem first_some_isSome_right (x : Option String) (z : String) :
    (first_some x (some z)).isSome = true := by
  cases x <;> rfl

theorem last_arg_cons (sel : GetoptResult → Option String) (r : GetoptResult)
    (rest : List GetoptResult) :
    last_arg sel (r :: rest) = first_some (last_arg sel rest) (sel r) := rfl

theorem getopt_loop_clean (opts : List GetoptResult) :
    ∀ v : Locals, parses_cleanly opts → getopt_loop opts v = some (parsed_locals opts v) := by
  induction opts with
  | nil =>
    intro v _
    simp [getopt_loop, parsed_locals, given_a, given_d, given_l, last_arg, first_some]
  | cons r rest ih =>
    intro v h
    have hr : r ≠ GetoptResult.unknown := by
      intro e; apply h; simp [e]
    have hrest : parses_cleanly rest := by
      intro e; apply h; simp [e]
    have step : ∀ v1, switch_case v r = some v1 →
        parsed_locals rest v1 = parsed_locals (r :: rest) v := by
      intro v1 hv1
      cases r <;> simp only [switch_case, Option.some.injEq, reduceCtorEq] at hv1 <;> subst hv1 <;>
        simp [parsed_locals, given_a, given_d, given_l, last_arg_cons, arg_a, arg_d, arg_fs,
          arg_c, arg_s, arg_u, arg_p, first_some_assoc, first_some_none_right,
          first_some_none_left, first_some_some_left, first_some_isSome_right]
    cases hs : switch_case v r with
    | none => cases r <;> simp [switch_case] at hs; exact absurd rfl hr
    | some v1 =>
      simp only [getopt_loop, hs]
      rw [ih v1 hrest, step v1 hs]

theorem getopt_loop_unknown (opts : List GetoptResult) :
    ∀ v : Locals, ¬ parses_cleanly opts → getopt_loop opts v = none := by
  induction opts with
  | nil => intro v h; exact absurd (by simp [parses_cleanly]) h
  | cons r rest ih =>
    intro v h
    cases hs : switch_case v r with
    | none => simp [getopt_loop, hs]
    | some v1 =>
      simp only [getopt_loop, hs]
      apply ih
      intro hrest
      apply h
      intro hmem
      rcases List.mem_cons.mp hmem with e | e
      · rw [← e] at hs; simp [switch_case] at hs
      · exact hrest e

theorem parsed_conffile (opts : List GetoptResult) :
    (parsed_locals opts Locals.init).conffile = last_arg arg_c opts := by
  simp [parsed_locals, Locals.init, first_some_none_right]

/-! ## The control flow of `main` -/

theorem main_unclean (env : Env) (opts : List GetoptResult) (operands : List String)
    (h : ¬ parses_cleanly opts) : main env opts operands = usage env.conf World.start := by
  simp [main, getopt_loop_unknown opts _ h]

theorem main_init_fails (env : Env) (opts : List GetoptResult) (operands : List String)
    (h : parses_cleanly opts) (hi : init_status env opts < 0) :
    main env opts operands = { world := World.start, status := 1 } := by
  simp only [main, getopt_loop_clean opts _ h, parsed_conffile]
  simp only [init_status] at hi
  simp [hi]

theorem main_clean (env : Env) (opts : List GetoptResult) (operands : List String)
    (h : parses_cleanly opts) (hi : 0 ≤ init_status env opts) :
    main env opts operands =
      if operands ≠ [] then usage (configured env opts) World.start
      else if action_kinds opts = 0 then usage (configured env opts) World.start
      else if 1 < action_kinds opts then
        msg_exit "Use only one of -a, -d, and -l options." World.start
      else
        { world := dispatch env (configured env opts)
            (resolve_credentials (configured env opts) (parsed_locals opts Locals.init))
            World.start,
          status := 0 } := by
  simp only [main, getopt_loop_clean opts _ h, parsed_conffile]
  simp only [init_status] at hi
  have hi2 : ¬ (env.lmt_conf_init 1 (last_arg arg_c opts) env.conf).1 < 0 := not_lt.mpr hi
  simp only [hi2, if_false, configured]
  by_cases ho : operands ≠ []
  · simp [ho]
  · simp only [ho, if_false]
    simp only [parsed_locals, Locals.init, action_kinds]
    cases given_a opts <;> cases given_d opts <;> cases given_l opts <;> simp

/-! ## Usage errors -/

/-- C4: when none of `-a`, `-d`, `-l` is given, the options parse cleanly and
`lmt_conf_init` succeeds, `main` writes the usage message (with the configured
read-write user and password as the defaults shown) and nothing else, exits
with status 1, and enters none of `list`, `del`, `add`; this holds with or
without positional arguments. -/
theorem usage_when_no_action (env : Env) (opts : List GetoptResult) (operands : List String)
    (hclean : parses_cleanly opts) (hinit : 0 ≤ init_status env opts)
    (ha : given_a opts = false) (hd : given_d opts = false) (hl : given_l opts = false) :
    (main env opts operands).world.stderr =
        [usage_text (lmt_conf_get_db_rwuser (configured env opts))
          (lmt_conf_get_db_rwpasswd (configured env opts))] ∧
      (main env opts operands).world.msgs = [] ∧
      (main env opts operands).status = 1 ∧
      (main env opts operands).world.calls = [] := by
  rw [main_clean env opts operands hclean hinit]
  have hk : action_kinds opts = 0 := by simp [action_kinds, ha, hd, hl]
  by_cases ho : operands ≠ []
  · simp [ho, usage, World.start]
  · simp [ho, hk, usage, World.start]

/-- C4, at `lmtinit -u alice -c /etc/lmt.conf` in the sample environment. -/
theorem usage_when_no_action_witness :
    parses_cleanly [GetoptResult.u "alice", GetoptResult.c "/etc/lmt.conf"] ∧
      0 ≤ init_status sample_env [GetoptResult.u "alice", GetoptResult.c "/etc/lmt.conf"] ∧
      (main sample_env [GetoptResult.u "alice", GetoptResult.c "/etc/lmt.conf"] []).world.stderr =
        [usage_text (some "lwatchadmin") (some "rwpw")] ∧
      (main sample_env [GetoptResult.u "alice", GetoptResult.c "/etc/lmt.conf"] []).world.msgs
        = [] ∧
      (main sample_env [GetoptResult.u "alice", GetoptResult.c "/etc/lmt.conf"] []).status = 1 ∧
      (main sample_env [GetoptResult.u "alice", GetoptResult.c "/etc/lmt.conf"] []).world.calls
        = [] :=
  ⟨by decide, by decide,
    usage_when_no_action sample_env [GetoptResult.u "alice", GetoptResult.c "/etc/lmt.conf"] []
      (by decide) (by decide) (by decide) (by decide) (by decide)⟩

/-- C5 as stated fails at `lmtinit -a scratch -l`: the options parse,
initialisation succeeds, two action kinds are given, and `main` writes no usage
message at all; it emits the line "Use only one of -a, -d, and -l options."
through `msg_exit` instead. -/
theorem two_actions_no_usage :
    parses_cleanly [GetoptResult.a "scratch", GetoptResult.l] ∧
      0 ≤ init_status sample_env [GetoptResult.a "scratch", GetoptResult.l] ∧
      1 < action_kinds [GetoptResult.a "scratch", GetoptResult.l] ∧
      (main sample_env [GetoptResult.a "scratch", GetoptResult.l] []).world.stderr = [] ∧
      (main sample_env [GetoptResult.a "scratch", GetoptResult.l] []).world.stderr ≠
        [usage_text
          (lmt_conf_get_db_rwuser
            (configured sample_env [GetoptResult.a "scratch", GetoptResult.l]))
          (lmt_conf_get_db_rwpasswd
            (configured sample_env [GetoptResult.a "scratch", GetoptResult.l]))] ∧
      (main sample_env [GetoptResult.a "scratch", GetoptResult.l] []).world.msgs =
        ["Use only one of -a, -d, and -l options."] := by
  decide

/-- C5, amended: when more than one of the action kinds `-a`, `-d`, `-l` is
given, the options parse cleanly and `lmt_conf_init` succeeds, `main` exits with
status 1 and enters none of `list`, `del`, `add`; with no positional argument it
emits the line "Use only one of -a, -d, and -l options." through `msg_exit` and
writes no usage message, and with a positional argument it writes the usage
message. -/
theorem several_actions_rejected (env : Env) (opts : List GetoptResult)
    (operands : List String)
    (hclean : parses_cleanly opts) (hinit : 0 ≤ init_status env opts)
    (hmany : 1 < action_kinds opts) :
    (main env opts operands).status = 1 ∧
      (main env opts operands).world.calls = [] ∧
      (operands = [] →
        (main env opts operands).world.stderr = [] ∧
        (main env opts operands).world.msgs = ["Use only one of -a, -d, and -l options."]) ∧
      (operands ≠ [] →
        (main env opts operands).world.stderr =
          [usage_text (lmt_conf_get_db_rwuser (configured env opts))
            (lmt_conf_get_db_rwpasswd (configured env opts))] ∧
        (main env opts operands).world.msgs = []) := by
  rw [main_clean env opts operands hclean hinit]
  have hk : action_kinds opts ≠ 0 := by omega
  by_cases ho : operands ≠ []
  · simp [ho, usage, World.start]
  · simp [ho, hk, hmany, msg_exit, msg, World.start]

/-- C5 amended, at `lmtinit -d home -l -a scratch`. -/
theorem several_actions_rejected_witness :
    parses_cleanly [GetoptResult.d "home", GetoptResult.l, GetoptResult.a "scratch"] ∧
      0 ≤ init_status sample_env
        [GetoptResult.d "home", GetoptResult.l, GetoptResult.a "scratch"] ∧
      1 < action_kinds [GetoptResult.d "home", GetoptResult.l, GetoptResult.a "scratch"] ∧
      (main sample_env [GetoptResult.d "home", GetoptResult.l, GetoptResult.a "scratch"]
        []).status = 1 ∧
      (main sample_env [GetoptResult.d "home", GetoptResult.l, GetoptResult.a "scratch"]
        []).world.msgs = ["Use only one of -a, -d, and -l options."] :=
  ⟨by decide, by decide, by decide,
    (several_actions_rejected sample_env
      [GetoptResult.d "home", GetoptResult.l, GetoptResult.a "scratch"] []
      (by decide) (by decide) (by decide)).1,
    ((several_actions_rejected sample_env
      [GetoptResult.d "home", GetoptResult.l, GetoptResult.a "scratch"] []
      (by decide) (by decide) (by decide)).2.2.1 rfl).2⟩

/-- C6 as stated fails at `lmtinit -l extra` when the configuration cannot be
loaded: a positional argument is left, `lmt_conf_init` is negative, and `main`
exits with status 1 before the check of `optind`, without the usage message. -/
theorem operand_with_failed_init_no_usage :
    ["extra"] ≠ ([] : List String) ∧
      init_status badconf_env [GetoptResult.l] < 0 ∧
      (main badconf_env [GetoptResult.l] ["extra"]).world.stderr = [] ∧
      (main badconf_env [GetoptResult.l] ["extra"]).world.stderr ≠
        [usage_text (lmt_conf_get_db_rwuser (configured badconf_env [GetoptResult.l]))
          (lmt_conf_get_db_rwpasswd (configured badconf_env [GetoptResult.l]))] ∧
      (main badconf_env [GetoptResult.l] ["extra"]).world.stderr ≠
        [usage_text (lmt_conf_get_db_rwuser badconf_env.conf)
          (lmt_conf_get_db_rwpasswd badconf_env.conf)] ∧
      (main badconf_env [GetoptResult.l] ["extra"]).status = 1 := by
  decide

/-- C6, amended: when at least one positional argument is left, whatever the
action flags, `main` exits with status 1, emits no line and enters none of
`list`, `del`, `add`; it writes the usage message when an option fails to parse
(with the defaults of the store before initialisation) and when the options
parse and `lmt_conf_init` succeeds (with the configured defaults); when the
options parse and `lmt_conf_init` fails it writes nothing. -/
theorem operands_rejected (env : Env) (opts : List GetoptResult) (operands : List String)
    (hop : operands ≠ []) :
    (main env opts operands).status = 1 ∧
      (main env opts operands).world.calls = [] ∧
      (main env opts operands).world.msgs = [] ∧
      (¬ parses_cleanly opts →
        (main env opts operands).world.stderr =
          [usage_text (lmt_conf_get_db_rwuser env.conf) (lmt_conf_get_db_rwpasswd env.conf)]) ∧
      (parses_cleanly opts → 0 ≤ init_status env opts →
        (main env opts operands).world.stderr =
          [usage_text (lmt_conf_get_db_rwuser (configured env opts))
            (lmt_conf_get_db_rwpasswd (configured env opts))]) ∧
      (parses_cleanly opts → init_status env opts < 0 →
        (main env opts operands).world.stderr = []) := by
  by_cases hclean : parses_cleanly opts
  · by_cases hinit : 0 ≤ init_status env opts
    · rw [main_clean env opts operands hclean hinit]
      have hneg : ¬ init_status env opts < 0 := not_lt.mpr hinit
      simp [hop, hclean, hinit, hneg, usage, World.start]
    · have hneg : init_status env opts < 0 := not_le.mp hinit
      rw [main_init_fails env opts operands hclean hneg]
      simp [hclean, hinit, hneg, World.start]
  · rw [main_unclean env opts operands hclean]
    simp [hclean, usage, World.start]

/-- C6 amended, at `lmtinit -a scratch extra`. -/
theorem operands_rejected_witness :
    ["extra"] ≠ ([] : List String) ∧
      (main sample_env [GetoptResult.a "scratch"] ["extra"]).status = 1 ∧
      (main sample_env [GetoptResult.a "scratch"] ["extra"]).world.calls = [] ∧
      (main sample_env [GetoptResult.a "scratch"] ["extra"]).world.stderr =
        [usage_text (some "lwatchadmin") (some "rwpw")] :=
  ⟨by decide,
    (operands_rejected sample_env [GetoptResult.a "scratch"] ["extra"] (by decide)).1,
    (operands_rejected sample_env [GetoptResult.a "scratch"] ["extra"] (by decide)).2.1,
    (operands_rejected sample_env [GetoptResult.a "scratch"] ["extra"]
      (by decide)).2.2.2.2.1 (by decide) (by decide)⟩

/-! ## The `list` handler -/

theorem strchr_eq_dropWhile (l : List Char) (c : Char) :
    strchr l c = if c ∈ l then some (l.dropWhile (fun ch => ch ≠ c)) else none := by
  induction l with
  | nil => simp [strchr]
  | cons x xs ih =>
    by_cases hx : x = c
    · subst hx
      simp [strchr, List.dropWhile]
    · have hx2 : ¬ c = x := fun e => hx e.symm
      simp [strchr, List.dropWhile, hx, hx2, ih]

theorem list_line_eq_spec_line (s : String) : list_line s = spec_line s := by
  unfold list_line spec_line
  rw [strchr_eq_dropWhile]
  by_cases h : '_' ∈ s.data <;> simp [h]

theorem list_loop_eq (names : List String) :
    ∀ w : World, list_loop names w = { w with msgs := w.msgs ++ names.map list_line } := by
  induction names with
  | nil => intro w; simp [list_loop]
  | cons s rest ih => intro w; simp [list_loop, ih, msg]

/-- C7: when `lmt_db_list` succeeds, `list` emits exactly one line per name it
returned, in the order returned, after the lines already emitted, and writes
nothing else; each line is the name with everything up to and including its
first `_` removed, or the whole name when it has no `_`.  So the names
"lmt_scratch", "lmt_home" give the lines "scratch", "home", "a_b_c" gives "b_c"
and "scratch" gives "scratch". -/
theorem list_emits_stripped_names (env : Env) (conf : Conf) (user pass : Option String)
    (w : World) (hok : 0 ≤ (env.lmt_db_list conf user pass).1) :
    (list env conf user pass w).msgs =
        w.msgs ++ (env.lmt_db_list conf user pass).2.map spec_line ∧
      (list env conf user pass w).stderr = w.stderr ∧
      List.map list_line ["lmt_scratch", "lmt_home"] = ["scratch", "home"] ∧
      list_line "a_b_c" = "b_c" ∧
      list_line "scratch" = "scratch" := by
  have hneg : ¬ (env.lmt_db_list conf user pass).1 < 0 := not_lt.mpr hok
  have hfun : list_line = spec_line := funext list_line_eq_spec_line
  refine ⟨?_, ?_, by decide, by decide, by decide⟩
  · simp [list, hneg, list_loop_eq, hfun]
  · simp [list, hneg, list_loop_eq]

/-- C7, at the sample database, which holds "lmt_scratch" and "lmt_home". -/
theorem list_emits_stripped_names_witness :
    0 ≤ (sample_env.lmt_db_list sample_conf (some "lwatchclient") none).1 ∧
      (list sample_env sample_conf (some "lwatchclient") none World.start).msgs =
        ["scratch", "home"] :=
  ⟨by decide,
    (list_emits_stripped_names sample_env sample_conf (some "lwatchclient") none World.start
      (by decide)).1⟩

theorem list_calls (env : Env) (conf : Conf) (user pass : Option String) (w : World) :
    (list env conf user pass w).calls = w.calls ++ [Call.list user pass] := by
  unfold list
  by_cases h : (env.lmt_db_list conf user pass).1 < 0 <;> simp [h, list_loop_eq]

theorem list_fails (env : Env) (conf : Conf) (user pass : Option String) (w : World)
    (h : (env.lmt_db_list conf user pass).1 < 0) :
    list env conf user pass w = { w with calls := w.calls ++ [Call.list user pass] } := by
  simp [list, h]

/-! ## Dispatch -/

theorem resolve_credentials_keeps (conf : Conf) (v : Locals) :
    (resolve_credentials conf v).aopt = v.aopt ∧
      (resolve_credentials conf v).dopt = v.dopt ∧
      (resolve_credentials conf v).lopt = v.lopt ∧
      (resolve_credentials conf v).fsname = v.fsname ∧
      (resolve_credentials conf v).schemafile = v.schemafile ∧
      (resolve_credentials conf v).pass = v.pass := by
  unfold resolve_credentials
  by_cases hl : v.lopt ≠ 0 <;> by_cases hu : v.user.isNone = true <;>
    by_cases hp : v.pass.isNone = true <;> simp [hl, hu, hp]

theorem given_a_cons_false (r : GetoptResult) (rest : List GetoptResult)
    (h : given_a (r :: rest) = false) : given_a rest = false ∧ arg_a r = none := by
  unfold given_a at *
  rw [last_arg_cons] at h
  cases hq : last_arg arg_a rest <;> cases hr : arg_a r <;> simp [hq, hr, first_some] at h ⊢

theorem given_d_cons_false (r : GetoptResult) (rest : List GetoptResult)
    (h : given_d (r :: rest) = false) : given_d rest = false ∧ arg_d r = none := by
  unfold given_d at *
  rw [last_arg_cons] at h
  cases hq : last_arg arg_d rest <;> cases hr : arg_d r <;> simp [hq, hr, first_some] at h ⊢

theorem fsname_without_a (opts : List GetoptResult) (h : given_a opts = false) :
    last_arg arg_fs opts = last_arg arg_d opts := by
  induction opts with
  | nil => rfl
  | cons r rest ih =>
    obtain ⟨h1, h2⟩ := given_a_cons_false r rest h
    rw [last_arg_cons, last_arg_cons, ih h1]
    cases r <;> simp [arg_a] at h2 <;> simp [arg_fs, arg_d]

theorem fsname_without_d (opts : List GetoptResult) (h : given_d opts = false) :
    last_arg arg_fs opts = last_arg arg_a opts := by
  induction opts with
  | nil => rfl
  | cons r rest ih =>
    obtain ⟨h1, h2⟩ := given_d_cons_false r rest h
    rw [last_arg_cons, last_arg_cons, ih h1]
    cases r <;> simp [arg_d] at h2 <;> simp [arg_fs, arg_a]

theorem main_only_l (env : Env) (opts : List GetoptResult)
    (hclean : parses_cleanly opts) (hinit : 0 ≤ init_status env opts)
    (hl : given_l opts = true) (ha : given_a opts = false) (hd : given_d opts = false) :
    main env opts [] =
      { world := list env (configured env opts)
          (resolve_credentials (configured env opts) (parsed_locals opts Locals.init)).user
          (last_arg arg_p opts) World.start,
        status := 0 } := by
  rw [main_clean env opts [] hclean hinit]
  have hk : action_kinds opts = 1 := by simp [action_kinds, ha, hd, hl]
  obtain ⟨_, _, k3, _, _, k6⟩ :=
    resolve_credentials_keeps (configured env opts) (parsed_locals opts Locals.init)
  have hlopt : (parsed_locals opts Locals.init).lopt = 1 := by simp [parsed_locals, hl]
  have hpass : (parsed_locals opts Locals.init).pass = last_arg arg_p opts := by
    simp [parsed_locals, Locals.init, first_some_none_right]
  simp [hk, dispatch, k3, k6, hlopt, hpass]

theorem main_only_d (env : Env) (opts : List GetoptResult)
    (hclean : parses_cleanly opts) (hinit : 0 ≤ init_status env opts)
    (hl : given_l opts = false) (ha : given_a opts = false) (hd : given_d opts = true) :
    main env opts [] =
      { world := del
          (resolve_credentials (configured env opts) (parsed_locals opts Locals.init)).user
          (last_arg arg_p opts) (last_arg arg_d opts) World.start,
        status := 0 } := by
  rw [main_clean env opts [] hclean hinit]
  have hk : action_kinds opts = 1 := by simp [action_kinds, ha, hd, hl]
  obtain ⟨_, k2, k3, k4, _, k6⟩ :=
    resolve_credentials_keeps (configured env opts) (parsed_locals opts Locals.init)
  have hlopt : (parsed_locals opts Locals.init).lopt = 0 := by
    simp [parsed_locals, hl, Locals.init]
  have hdopt : (parsed_locals opts Locals.init).dopt = 1 := by simp [parsed_locals, hd]
  have hpass : (parsed_locals opts Locals.init).pass = last_arg arg_p opts := by
    simp [parsed_locals, Locals.init, first_some_none_right]
  have hfs : (parsed_locals opts Locals.init).fsname = last_arg arg_d opts := by
    simp [parsed_locals, Locals.init, first_some_none_right, fsname_without_a opts ha]
  simp [hk, dispatch, k2, k3, k4, k6, hlopt, hdopt, hpass, hfs]

theorem main_only_a (env : Env) (opts : List GetoptResult)
    (hclean : parses_cleanly opts) (hinit : 0 ≤ init_status env opts)
    (hl : given_l opts = false) (ha : given_a opts = true) (hd : given_d opts = false) :
    main env opts [] =
      { world := add
          (resolve_credentials (configured env opts) (parsed_locals opts Locals.init)).user
          (last_arg arg_p opts) (last_arg arg_a opts) (last_arg arg_s opts) World.start,
        status := 0 } := by
  rw [main_clean env opts [] hclean hinit]
  have hk : action_kinds opts = 1 := by simp [action_kinds, ha, hd, hl]
  obtain ⟨k1, k2, k3, k4, k5, k6⟩ :=
    resolve_credentials_keeps (configured env opts) (parsed_locals opts Locals.init)
  have hlopt : (parsed_locals opts Locals.init).lopt = 0 := by
    simp [parsed_locals, hl, Locals.init]
  have hdopt : (parsed_locals opts Locals.init).dopt = 0 := by
    simp [parsed_locals, hd, Locals.init]
  have haopt : (parsed_locals opts Locals.init).aopt = 1 := by simp [parsed_locals, ha]
  have hpass : (parsed_locals opts Locals.init).pass = last_arg arg_p opts := by
    simp [parsed_locals, Locals.init, first_some_none_right]
  have hsch : (parsed_locals opts Locals.init).schemafile = last_arg arg_s opts := by
    simp [parsed_locals, Locals.init, first_some_none_right]
  have hfs : (parsed_locals opts Locals.init).fsname = last_arg arg_a opts := by
    simp [parsed_locals, Locals.init, first_some_none_right, fsname_without_d opts hd]
  simp [hk, dispatch, k1, k2, k3, k4, k5, k6, hlopt, hdopt, haopt, hpass, hsch, hfs]

/-- C8: when the options parse cleanly, `lmt_conf_init` succeeds, no positional
argument is left and exactly one of the action kinds `-a`, `-d`, `-l` is given,
`main` enters exactly one handler, once, and exits with status 0 without a usage
message: `list` for `-l`; `del` for `-d`, with `fsname` the argument of (the
last) `-d`; `add` for `-a`, with `fsname` the argument of (the last) `-a` and
`schemafile` the argument of (the last) `-s`, NULL when `-s` is not given. -/
theorem dispatch_single_action (env : Env) (opts : List GetoptResult)
    (hclean : parses_cleanly opts) (hinit : 0 ≤ init_status env opts)
    (hone : action_kinds opts = 1) :
    (main env opts []).status = 0 ∧
      (main env opts []).world.stderr = [] ∧
      (given_l opts = true → ∃ u p, (main env opts []).world.calls = [Call.list u p]) ∧
      (given_d opts = true →
        ∃ u p, (main env opts []).world.calls = [Call.del u p (last_arg arg_d opts)]) ∧
      (given_a opts = true →
        ∃ u p, (main env opts []).world.calls =
          [Call.add u p (last_arg arg_a opts) (last_arg arg_s opts)]) := by
  unfold action_kinds at hone
  cases ha : given_a opts <;> cases hd : given_d opts <;> cases hl : given_l opts <;>
    simp [ha, hd, hl] at hone
  · rw [main_only_l env opts hclean hinit hl ha hd]
    refine ⟨rfl, ?_, ?_, ?_, ?_⟩
    · unfold list
      by_cases h : (env.lmt_db_list (configured env opts)
          (resolve_credentials (configured env opts) (parsed_locals opts Locals.init)).user
          (last_arg arg_p opts)).1 < 0 <;> simp [h, list_loop_eq, World.start]
    · intro _
      exact ⟨(resolve_credentials (configured env opts)
        (parsed_locals opts Locals.init)).user, last_arg arg_p opts, by simp [list_calls, World.start]⟩
    · intro h; cases h
    · intro h; cases h
  · rw [main_only_d env opts hclean hinit hl ha hd]
    refine ⟨rfl, rfl, ?_, ?_, ?_⟩
    · intro h; cases h
    · intro _
      exact ⟨(resolve_credentials (configured env opts)
        (parsed_locals opts Locals.init)).user, last_arg arg_p opts, by simp [del, World.start]⟩
    · intro h; cases h
  · rw [main_only_a env opts hclean hinit hl ha hd]
    refine ⟨rfl, rfl, ?_, ?_, ?_⟩
    · intro h; cases h
    · intro h; cases h
    · intro _
      exact ⟨(resolve_credentials (configured env opts)
        (parsed_locals opts Locals.init)).user, last_arg arg_p opts, by simp [add, World.start]⟩

/-- C8, at `lmtinit -s /tmp/schema.sql -a scratch -p pw`. -/
theorem dispatch_single_action_witness :
    parses_cleanly
        [GetoptResult.s "/tmp/schema.sql", GetoptResult.a "scratch", GetoptResult.p "pw"] ∧
      0 ≤ init_status sample_env
        [GetoptResult.s "/tmp/schema.sql", GetoptResult.a "scratch", GetoptResult.p "pw"] ∧
      action_kinds
        [GetoptResult.s "/tmp/schema.sql", GetoptResult.a "scratch", GetoptResult.p "pw"] = 1 ∧
      (main sample_env
        [GetoptResult.s "/tmp/schema.sql", GetoptResult.a "scratch", GetoptResult.p "pw"]
        []).status = 0 ∧
      ∃ u p, (main sample_env
        [GetoptResult.s "/tmp/schema.sql", GetoptResult.a "scratch", GetoptResult.p "pw"]
        []).world.calls = [Call.add u p (some "scratch") (some "/tmp/schema.sql")] :=
  ⟨by decide, by decide, by decide,
    (dispatch_single_action sample_env
      [GetoptResult.s "/tmp/schema.sql", GetoptResult.a "scratch", GetoptResult.p "pw"]
      (by decide) (by decide) (by decide)).1,
    (dispatch_single_action sample_env
      [GetoptResult.s "/tmp/schema.sql", GetoptResult.a "scratch", GetoptResult.p "pw"]
      (by decide) (by decide) (by decide)).2.2.2.2 (by decide)⟩

/-- C9: in an invocation that reaches `list` (only `-l` among the action kinds,
options parse cleanly, `lmt_conf_init` succeeds, no positional argument), when
`lmt_db_list` returns a negative value for the call `list` makes, the program
emits no line and writes nothing, `list` is the only handler entered, and the
exit status is still 0. -/
theorem list_failure_is_silent (env : Env) (opts : List GetoptResult)
    (hclean : parses_cleanly opts) (hinit : 0 ≤ init_status env opts)
    (hl : given_l opts = true) (ha : given_a opts = false) (hd : given_d opts = false)
    (hfail : ∀ u p, Call.list u p ∈ (main env opts []).world.calls →
      (env.lmt_db_list (configured env opts) u p).1 < 0) :
    (main env opts []).world.msgs = [] ∧
      (main env opts []).world.stderr = [] ∧
      (main env opts []).status = 0 ∧
      ∃ u p, (main env opts []).world.calls = [Call.list u p] := by
  have hmain := main_only_l env opts hclean hinit hl ha hd
  have hneg := hfail
    (resolve_credentials (configured env opts) (parsed_locals opts Locals.init)).user
    (last_arg arg_p opts) (by rw [hmain]; simp [list_calls, World.start])
  rw [hmain, list_fails _ _ _ _ _ hneg]
  exact ⟨rfl, rfl, rfl, _, _, rfl⟩

/-- C9, at `lmtinit -l` against a database that refuses the connection. -/
theorem list_failure_is_silent_witness :
    parses_cleanly [GetoptResult.l] ∧
      0 ≤ init_status dbfail_env [GetoptResult.l] ∧
      (dbfail_env.lmt_db_list (configured dbfail_env [GetoptResult.l])
        (some "lwatchclient") none).1 < 0 ∧
      (main dbfail_env [GetoptResult.l] []).world.msgs = [] ∧
      (main dbfail_env [GetoptResult.l] []).status = 0 :=
  ⟨by decide, by decide, by decide,
    (list_failure_is_silent dbfail_env [GetoptResult.l] (by decide) (by decide) (by decide)
      (by decide) (by decide)
      (by
        intro u p hmem
        have hcalls : (main dbfail_env [GetoptResult.l] []).world.calls =
            [Call.list (some "lwatchclient") none] := by decide
        rw [hcalls] at hmem
        simp only [List.mem_singleton, Call.list.injEq] at hmem
        obtain ⟨hu, hp⟩ := hmem
        subst hu; subst hp
        decide)).1,
    (list_failure_is_silent dbfail_env [GetoptResult.l] (by decide) (by decide) (by decide)
      (by decide) (by decide)
      (by
        intro u p hmem
        have hcalls : (main dbfail_env [GetoptResult.l] []).world.calls =
            [Call.list (some "lwatchclient") none] := by decide
        rw [hcalls] at hmem
        simp only [List.mem_singleton, Call.list.injEq] at hmem
        obtain ⟨hu, hp⟩ := hmem
        subst hu; subst hp
        decide)).2.2.1⟩

/-! ## Credentials -/

theorem resolve_credentials_user (conf : Conf) (v : Locals) :
    (resolve_credentials conf v).user =
      if v.user.isSome ∧ v.pass.isSome then v.user
      else if v.lopt ≠ 0 then lmt_conf_get_db_rouser conf
      else lmt_conf_get_db_rwuser conf := by
  unfold resolve_credentials
  by_cases hl : v.lopt ≠ 0 <;> cases hu : v.user <;> cases hp : v.pass <;> simp [hl, hu, hp]

/-- C1, the code at `lmtinit -l` with a read-only password configured: `list`
receives the configured read-only user and a NULL password, not the configured
read-only password "ropw". -/
theorem list_default_password_is_null :
    parses_cleanly [GetoptResult.l] ∧
      0 ≤ init_status sample_env [GetoptResult.l] ∧
      lmt_conf_get_ro_dbuser (configured sample_env [GetoptResult.l]) = some "lwatchclient" ∧
      lmt_conf_get_ro_dbpasswd (configured sample_env [GetoptResult.l]) = some "ropw" ∧
      (main sample_env [GetoptResult.l] []).world.calls =
        [Call.list (some "lwatchclient") none] := by
  decide

/-- C2, the code at `lmtinit -a scratch` and at `lmtinit -d scratch` with a
read-write password configured: `add` and `del` receive the configured
read-write user and a NULL password, not the configured read-write password
"rwpw". -/
theorem add_del_default_password_is_null :
    parses_cleanly [GetoptResult.a "scratch"] ∧
      parses_cleanly [GetoptResult.d "scratch"] ∧
      0 ≤ init_status sample_env [GetoptResult.a "scratch"] ∧
      0 ≤ init_status sample_env [GetoptResult.d "scratch"] ∧
      lmt_conf_get_rw_dbuser (configured sample_env [GetoptResult.a "scratch"])
        = some "lwatchadmin" ∧
      lmt_conf_get_rw_dbpasswd (configured sample_env [GetoptResult.a "scratch"])
        = some "rwpw" ∧
      (main sample_env [GetoptResult.a "scratch"] []).world.calls =
        [Call.add (some "lwatchadmin") none (some "scratch") none] ∧
      (main sample_env [GetoptResult.d "scratch"] []).world.calls =
        [Call.del (some "lwatchadmin") none (some "scratch")] := by
  decide

/-- C3, the code at `lmtinit -l -u alice` and at `lmtinit -d scratch -u alice`
(no `-p`): the handler receives the configured user in place of "alice"; with
`-p` added, at `lmtinit -l -u alice -p pw`, it receives "alice" and "pw". -/
theorem explicit_user_replaced_without_password :
    (main sample_env [GetoptResult.l, GetoptResult.u "alice"] []).world.calls =
        [Call.list (some "lwatchclient") none] ∧
      (main sample_env [GetoptResult.d "scratch", GetoptResult.u "alice"] []).world.calls =
        [Call.del (some "lwatchadmin") none (some "scratch")] ∧
      (main sample_env [GetoptResult.l, GetoptResult.u "alice", GetoptResult.p "pw"]
        []).world.calls = [Call.list (some "alice") (some "pw")] := by
  decide

/-! ## Configuration accessors -/

theorem get_set_same (f : Field) (v : f.type) (c : Conf) :
    get_field f (set_field f v c) = v := by
  cases f <;> rfl

theorem get_set_other (f g : Field) (v : f.type) (c : Conf) (h : g ≠ f) :
    get_field g (set_field f v c) = get_field g c := by
  cases f <;> cases g <;> first | rfl | exact absurd rfl h

theorem get_run_sets (ops : List SetCall) :
    ∀ (f : Field) (c : Conf), get_field f (run_sets ops c) =
      match last_set f ops with
      | some x => x
      | none => get_field f c := by
  induction ops with
  | nil => intro f c; rfl
  | cons s rest ih =>
    intro f c
    obtain ⟨g, v⟩ := s
    simp only [run_sets, last_set]
    rw [ih f (set_field g v c)]
    cases hq : last_set f rest with
    | some x => rfl
    | none =>
      by_cases hg : g = f
      · subst hg
        simp [get_set_same]
      · have hne : f ≠ g := fun e => hg e.symm
        simp [hg, get_set_other g f v c hne]

/-- C10: for each of the seven configuration fields, a get after a set returns
the value set; after any sequence of setter calls a getter returns the value of
the last call that set its field, and the value it returned before the sequence
when no call set it; and a set of one field leaves the get of every other field
unchanged. -/
theorem conf_set_get_roundtrip :
    (∀ (f : Field) (v : f.type) (c : Conf), get_field f (set_field f v c) = v) ∧
      (∀ (f : Field) (v1 v2 : f.type) (c : Conf),
        get_field f (set_field f v2 (set_field f v1 c)) = v2) ∧
      (∀ (ops : List SetCall) (f : Field) (c : Conf),
        get_field f (run_sets ops c) =
          match last_set f ops with
          | some x => x
          | none => get_field f c) ∧
      (∀ (f g : Field) (v : f.type) (c : Conf),
        g ≠ f → get_field g (set_field f v c) = get_field g c) :=
  ⟨get_set_same, fun f _ v2 _ => get_set_same f v2 _, get_run_sets,
    fun f g v c h => get_set_other f g v c h⟩

end Lmt
